import Mathlib

/-
Verification development for the Notes-App backend.

The definitions below are a shallow embedding of the Python sources:
  src/note_schema.py   (JNote document schema: NoteBlock, NoteMetadata, JNote)
  src/cache_db.py      (FileIndex: the SQLite note/directory index)
  src/filesys.py       (update_note, VaultEventHandler._process_note_file)
  src/active_state.py  (ActiveNote: echo suppression, hot swap, debounced save)

Modelling conventions:
  - Python dicts that hold JSON data are modelled as association lists of
    JValue; absent keys are Option.none.
  - File mtimes (Python floats of seconds) are modelled as exact rationals.
  - Disk and clock effects are passed in as explicit parameters: the content a
    read returns, whether a write succeeds and the resulting mtime, the
    ISO-8601 string the clock would print, and the UUID a fresh-id call would
    return.  Python generates a distinct UUID at each call; the embedding
    abstracts the generator to a parameter since no claim depends on
    distinctness.
  - SQLite LIKE with a bound pattern p || '%' is modelled as literal-prefix
    matching of p (exact for paths that contain no LIKE metacharacters), and
    SQLite replace(x, a, b) as left-to-right non-overlapping replacement of
    every occurrence of a in x by b.
-/

/-- A JSON value, the payload type of block data and custom fields. -/
inductive JValue where
  | null
  | bool (b : Bool)
  | num (q : Rat)
  | str (s : String)
  | arr (elems : List JValue)
  | obj (fields : List (String × JValue))

/-- A JSON object used as an opaque payload (Python Dict[str, Any]). -/
abbrev Payload := List (String × JValue)

/-- note_schema.CURRENT_BLOCK_VERSION. -/
def CURRENT_BLOCK_VERSION : String := "1.0"

/-- note_schema.CURRENT_NOTE_VERSION. -/
def CURRENT_NOTE_VERSION : String := "1.0"

/-- note_schema.NoteBlock: one content block of a note. -/
structure NoteBlock where
  block_id : String
  type : String
  data : Payload
  version : String
  tags : List String
  backlinks : List String

/-- note_schema.NoteMetadata: the header of a note document. -/
structure NoteMetadata where
  note_id : String
  title : String
  created_at : String
  last_modified : String
  version : String
  status : Int
  tags : List String

/-- note_schema.JNote: a full .jnote document. -/
structure JNote where
  metadata : NoteMetadata
  blocks : List NoteBlock
  custom_fields : Payload

/-- A raw parsed-JSON block dictionary as NoteBlock.from_dict receives it:
each key may be absent. -/
structure RawBlockDict where
  block_id : Option String
  type : Option String
  data : Option Payload
  version : Option String
  tags : Option (List String)
  backlinks : Option (List String)

/-- A raw parsed-JSON metadata dictionary as NoteMetadata.from_dict receives
it: each key may be absent. -/
structure RawMetadataDict where
  note_id : Option String
  title : Option String
  created_at : Option String
  last_modified : Option String
  version : Option String
  status : Option Int
  tags : Option (List String)

/-- A raw parsed-JSON document dictionary as JNote.from_dict receives it.
`blocks = none` covers both an absent "blocks" key and a value that is not a
list (the code's isinstance guard treats both as no blocks). -/
structure RawNoteDict where
  metadata : Option RawMetadataDict
  custom_fields : Option Payload
  blocks : Option (List RawBlockDict)

/-- note_schema.NoteBlock.from_dict: fill absent fields with defaults.
`freshId` stands for the uuid4() the code would generate for an absent id. -/
def NoteBlock.from_dict (freshId : String) (d : RawBlockDict) : NoteBlock :=
  { block_id := d.block_id.getD freshId
    type := d.type.getD "text"
    data := d.data.getD []
    version := d.version.getD CURRENT_BLOCK_VERSION
    tags := d.tags.getD []
    backlinks := d.backlinks.getD [] }

/-- note_schema.NoteMetadata.from_dict: fill absent fields with defaults.
`freshId` stands for uuid4(), `defaultTime` for the current-time string. -/
def NoteMetadata.from_dict (freshId defaultTime : String) (d : RawMetadataDict) : NoteMetadata :=
  { note_id := d.note_id.getD freshId
    title := d.title.getD "Untitled Note"
    created_at := d.created_at.getD defaultTime
    last_modified := d.last_modified.getD defaultTime
    version := d.version.getD CURRENT_NOTE_VERSION
    status := d.status.getD 0
    tags := d.tags.getD [] }

/-- note_schema.NoteMetadata.update_timestamp: stamp last_modified with the
current-time string (passed in as `nowStr`). -/
def NoteMetadata.update_timestamp (m : NoteMetadata) (nowStr : String) : NoteMetadata :=
  { m with last_modified := nowStr }

/-- note_schema.JNote.from_dict: None when the "metadata" key is missing,
otherwise the strictly typed document.  NoteMetadata.from_dict and
NoteBlock.from_dict never raise (they substitute defaults), so the code's
try/except adds no further case. -/
def JNote.from_dict (freshId defaultTime : String) (d : RawNoteDict) : Option JNote :=
  match d.metadata with
  | none => none
  | some m =>
      some { metadata := NoteMetadata.from_dict freshId defaultTime m
             blocks := (d.blocks.getD []).map (NoteBlock.from_dict freshId)
             custom_fields := d.custom_fields.getD [] }

/-- The dictionary note_schema.JNote.to_dict emits.  dataclasses.asdict
serializes every field of NoteMetadata and NoteBlock, so the serialized
sub-dictionaries are represented by the structures themselves. -/
structure NoteDictOut where
  metadata : NoteMetadata
  custom_fields : Payload
  blocks : List NoteBlock

/-- note_schema.JNote.to_dict: assemble the three top-level keys. -/
def JNote.to_dict (n : JNote) : NoteDictOut :=
  { metadata := n.metadata
    custom_fields := n.custom_fields
    blocks := n.blocks }

/-- note_schema.JNote.create_new: a fresh empty note.  `newId` stands for the
generated uuid4() and `nowStr` for the current-time string. -/
def JNote.create_new (title nowStr newId : String) : JNote :=
  { metadata :=
      { note_id := newId
        title := title
        created_at := nowStr
        last_modified := nowStr
        version := CURRENT_NOTE_VERSION
        status := 0
        tags := [] }
    blocks := []
    custom_fields := [] }

/-- cache_db.NoteMetadata: one row of the notes table.  note_id is Option
because VaultEventHandler._process_note_file passes meta_dict.get("note_id"),
which is Python None when the extracted header lacks the key (stored as SQL
NULL). -/
structure CacheDb.NoteMetadata where
  note_id : Option String
  note_title : String
  note_version : String
  note_dir : String
deriving DecidableEq

/-- cache_db.DirectoryMetadata: one row of the directories table. -/
structure CacheDb.DirectoryMetadata where
  dir_path : String
  dir_name : String
  parent_path : Option String
deriving DecidableEq

/-- cache_db.FileIndex: the two tables of the SQLite cache. -/
structure FileIndex where
  notes : List CacheDb.NoteMetadata
  directories : List CacheDb.DirectoryMetadata

/-- Literal prefix match on strings: the semantics of SQL LIKE with the bound
pattern p || '%' for a p free of LIKE metacharacters. -/
def prefixMatch (p s : String) : Bool :=
  p.data.isPrefixOf s.data

/-- SQLite replace() inner loop: scan left to right; on a match of `pat` emit
`rep` and skip the matched characters (the Nat argument counts characters
still to skip); otherwise copy one character. -/
def replAux (pat rep : List Char) : Nat → List Char → List Char
  | _ + 1, [] => []
  | k + 1, _ :: rest => replAux pat rep k rest
  | 0, [] => []
  | 0, c :: rest =>
      if pat ≠ [] ∧ pat.isPrefixOf (c :: rest) then
        rep ++ replAux pat rep (pat.length - 1) rest
      else c :: replAux pat rep 0 rest

/-- SQLite replace(s, pat, rep): every occurrence of pat in s replaced by rep,
left to right, non-overlapping; s unchanged when pat is empty. -/
def sqliteReplace (s pat rep : String) : String :=
  ⟨replAux pat.data rep.data 0 s.data⟩

/-- os.path.join(p, "") as used by delete_directory_recursive: append the
path separator unless p is empty or already ends in one. -/
def sepBounded (p : String) : String :=
  if p = "" then "" else if p.data.getLast? = some '/' then p else p ++ "/"

/-- cache_db.FileIndex.get_metadata: SELECT * FROM notes WHERE note_id = ?
(fetchone returns the first matching row; a NULL note_id never matches). -/
def FileIndex.get_metadata (db : FileIndex) (note_id : String) : Option CacheDb.NoteMetadata :=
  db.notes.find? (fun r => r.note_id == some note_id)

/-- cache_db.FileIndex.add_metadata: INSERT OR REPLACE INTO notes.  A
conflicting row (same non-NULL primary key) is deleted and the new row
appended; a NULL key never conflicts in SQLite. -/
def FileIndex.add_metadata (db : FileIndex) (note : CacheDb.NoteMetadata) : FileIndex :=
  match note.note_id with
  | none => { db with notes := db.notes ++ [note] }
  | some _ => { db with notes := db.notes.filter (fun r => r.note_id != note.note_id) ++ [note] }

/-- cache_db.FileIndex.add_directory: INSERT OR REPLACE INTO directories. -/
def FileIndex.add_directory (db : FileIndex) (dir : CacheDb.DirectoryMetadata) : FileIndex :=
  { db with directories := db.directories.filter (fun r => r.dir_path != dir.dir_path) ++ [dir] }

/-- cache_db.FileIndex.delete_note: DELETE FROM notes WHERE note_id = ?. -/
def FileIndex.delete_note (db : FileIndex) (note_id : String) : FileIndex :=
  { db with notes := db.notes.filter (fun r => r.note_id != some note_id) }

/-- cache_db.FileIndex.delete_directory_recursive: four sequential DELETEs.
Children are matched with LIKE safe_child_prefix || '%' where
safe_child_prefix = os.path.join(dir_path, ""), the directory itself by exact
match. -/
def FileIndex.delete_directory_recursive (db : FileIndex) (dir_path : String) : FileIndex :=
  let safe_child := sepBounded dir_path
  let notes1 := db.notes.filter (fun r => !(prefixMatch safe_child r.note_dir))
  let notes2 := notes1.filter (fun r => r.note_dir != dir_path)
  let dirs1 := db.directories.filter (fun r => !(prefixMatch safe_child r.dir_path))
  let dirs2 := dirs1.filter (fun r => r.dir_path != dir_path)
  { notes := notes2, directories := dirs2 }

/-- cache_db.FileIndex.update_directory: three sequential UPDATEs.  The
folder row itself is renamed by exact match; descendants are matched with
LIKE old_path || '%' (no separator appended, unlike the recursive delete) and
rewritten with replace(). -/
def FileIndex.update_directory (db : FileIndex) (old_path new_path new_name : String) : FileIndex :=
  let dirs1 := db.directories.map (fun r =>
    if r.dir_path == old_path then { r with dir_path := new_path, dir_name := new_name } else r)
  let dirs2 := dirs1.map (fun r =>
    if prefixMatch old_path r.dir_path then
      { r with dir_path := sqliteReplace r.dir_path old_path new_path
               parent_path := r.parent_path.map (fun p => sqliteReplace p old_path new_path) }
    else r)
  let notes2 := db.notes.map (fun r =>
    if r.note_dir == old_path || prefixMatch old_path r.note_dir then
      { r with note_dir := sqliteReplace r.note_dir old_path new_path }
    else r)
  { notes := notes2, directories := dirs2 }

/-- The metadata dictionary filesys.VaultWatcher.extract_note_metadata yields,
projected to the keys _process_note_file reads.  The surrounding Option is
Python truthiness of the returned dict: none models the empty dict returned
when reading or parsing fails or the file has no metadata object. -/
structure ExtractedMeta where
  note_id : Option String
  title : Option String
  version : Option String

/-- filesys.VaultEventHandler._process_note_file, DB part: upsert a note row
when the extracted metadata dict is truthy, otherwise touch nothing.  The
filename stem is the title fallback; note_id is whatever the header carries
(None when absent).  The active-state notification it also fires carries no
DB effect and is not modelled here. -/
def VaultEventHandler.process_note_file (db : FileIndex) (fileStem parentDir : String)
    (extracted : Option ExtractedMeta) : FileIndex :=
  match extracted with
  | none => db
  | some m =>
      db.add_metadata
        { note_id := m.note_id
          note_title := m.title.getD fileStem
          note_version := m.version.getD "1.0"
          note_dir := parentDir }

/-- Result of filesys.update_note: the success dict with the captured mtime,
or the failure dict. -/
inductive UpdateNoteRes where
  | ok (mtime : Rat)
  | err

/-- filesys.update_note: resolve the path through the index, stamp the
document's last_modified (mutating the caller's object in place, returned
here as the second component), then write.  `diskWrite = some mtime` models a
successful json.dump whose file then stats to `mtime`; `none` models an
exception during the write.  When the id is not in the index the function
returns before touching the object. -/
def Filesys.update_note (db : FileIndex) (note : JNote) (nowStr : String)
    (diskWrite : Option Rat) : UpdateNoteRes × JNote :=
  match db.get_metadata note.metadata.note_id with
  | none => (.err, note)
  | some _ =>
      let note2 := { note with metadata := note.metadata.update_timestamp nowStr }
      match diskWrite with
      | some mtime => (.ok mtime, note2)
      | none => (.err, note2)

/-- active_state.ActiveNote mutable state: the in-memory document, the dirty
flag and the echo watermark (last_known_mtime).  The embedding models an open
note whose initial load produced a document; file_path and the lock are
implicit (the semantics below is the linearization the per-note lock
enforces). -/
structure ActiveNoteState where
  note_obj : JNote
  is_dirty : Bool
  last_known_mtime : Rat

/-- The 0.1 s epsilon of the echo filter in handle_external_update. -/
def echoTolerance : Rat := 1 / 10

/-- The 2.0 s delay of the debounce timer in _schedule_save. -/
def debounceDelay : Rat := 2

/-- What handle_external_update did with a watcher notification. -/
inductive ExtUpdateAction where
  | ignoredEcho
  | refusedDirty
  | swapStarted

/-- active_state.ActiveNote._trigger_hot_swap: refuse when the user has
unsaved changes, otherwise start the reload thread. -/
def ActiveNote.trigger_hot_swap (s : ActiveNoteState) : ExtUpdateAction :=
  if s.is_dirty then .refusedDirty else .swapStarted

/-- active_state.ActiveNote.handle_external_update: the echo filter, then the
hot-swap trigger.  No branch touches the note state itself. -/
def ActiveNote.handle_external_update (s : ActiveNoteState) (event_mtime : Rat) :
    ActiveNoteState × ExtUpdateAction :=
  if |event_mtime - s.last_known_mtime| < echoTolerance then (s, .ignoredEcho)
  else (s, ActiveNote.trigger_hot_swap s)

/-- active_state.ActiveNote.add_block, state part: append the block the
factory built (passed in, carrying its fresh uuid) and mark dirty. -/
def ActiveNote.add_block (s : ActiveNoteState) (new_block : NoteBlock) : ActiveNoteState :=
  { s with note_obj := { s.note_obj with blocks := s.note_obj.blocks ++ [new_block] }
           is_dirty := true }

/-- The for-loop of update_block: replace the data of the first block with
the given id (the loop breaks after the first hit). -/
def updateFirstData : List NoteBlock → String → Payload → List NoteBlock
  | [], _, _ => []
  | b :: bs, block_id, new_data =>
      if b.block_id == block_id then { b with data := new_data } :: bs
      else b :: updateFirstData bs block_id new_data

/-- active_state.ActiveNote.update_block: when a block with the id exists,
update it, mark dirty and schedule a save; otherwise log a warning and leave
everything alone.  Returns (state, save scheduled, warning logged). -/
def ActiveNote.update_block (s : ActiveNoteState) (block_id : String) (new_data : Payload) :
    ActiveNoteState × Bool × Bool :=
  if s.note_obj.blocks.any (fun b => b.block_id == block_id) then
    ({ s with note_obj := { s.note_obj with blocks := updateFirstData s.note_obj.blocks block_id new_data }
              is_dirty := true }, true, false)
  else (s, false, true)

/-- active_state.ActiveNote.delete_block: rebuild the block list without the
id; mark dirty and schedule a save only when the list shrank.  Returns
(state, save scheduled). -/
def ActiveNote.delete_block (s : ActiveNoteState) (block_id : String) :
    ActiveNoteState × Bool :=
  let remaining := s.note_obj.blocks.filter (fun b => b.block_id != block_id)
  if remaining.length < s.note_obj.blocks.length then
    ({ s with note_obj := { s.note_obj with blocks := remaining }, is_dirty := true }, true)
  else
    ({ s with note_obj := { s.note_obj with blocks := remaining } }, false)

/-- One block-level mutation of the API surface. -/
inductive Mutation where
  | addBlock (new_block : NoteBlock)
  | updateBlock (block_id : String) (new_data : Payload)
  | deleteBlock (block_id : String)

/-- Apply one mutation; the Bool is whether _schedule_save was called. -/
def Mutation.apply (s : ActiveNoteState) : Mutation → ActiveNoteState × Bool
  | .addBlock b => (ActiveNote.add_block s b, true)
  | .updateBlock block_id new_data =>
      let r := ActiveNote.update_block s block_id new_data
      (r.1, r.2.1)
  | .deleteBlock block_id => ActiveNote.delete_block s block_id

/-- Apply a list of mutations in order. -/
def ActiveNote.applyMutations (s : ActiveNoteState) (ms : List Mutation) : ActiveNoteState :=
  ms.foldl (fun s m => (Mutation.apply s m).1) s

/-- Outcome of the hot-swap critical section. -/
inductive HotSwapResult where
  | swapped
  | aborted

/-- The critical section of _perform_hot_swap: re-check dirty under the lock;
abort leaving everything unchanged when the user edited during the read, else
install the freshly read document and watermark. -/
def ActiveNote.hot_swap_commit (s : ActiveNoteState) (new_obj : JNote) (new_mtime : Rat) :
    ActiveNoteState × HotSwapResult :=
  if s.is_dirty then (s, .aborted)
  else ({ s with note_obj := new_obj, last_known_mtime := new_mtime }, .swapped)

/-- active_state.ActiveNote._perform_hot_swap with the race made explicit:
the disk read and parse happen off the lock and yield `raw` (content at read
time) and `diskMtime`; `raceMutations` are the lock-ordered mutations that run
between the read and the lock re-acquisition; then the critical section runs
on the resulting state.  None models the read/parse raising (caught and
logged, state untouched) -- the swap of a parse that returned Python None is
outside this embedding of loaded documents. -/
def ActiveNote.perform_hot_swap (preRead : ActiveNoteState) (raceMutations : List Mutation)
    (raw : RawNoteDict) (freshId defaultTime : String) (diskMtime : Rat) :
    Option (ActiveNoteState × HotSwapResult) :=
  match JNote.from_dict freshId defaultTime raw with
  | none => none
  | some new_obj =>
      some (ActiveNote.hot_swap_commit (ActiveNote.applyMutations preRead raceMutations)
              new_obj diskMtime)

/-- What _save_to_disk did when the timer fired. -/
inductive SaveOutcome where
  | noop
  | saved (mtime : Rat)
  | failedReported

/-- active_state.ActiveNote._save_to_disk: under the lock, no-op unless
dirty; else write through filesys.update_note; on success capture the echo
watermark and clear dirty, on failure log the error and keep dirty.  The
in-place timestamp mutation update_note performed stays visible either way. -/
def ActiveNote.save_to_disk (s : ActiveNoteState) (db : FileIndex) (nowStr : String)
    (diskWrite : Option Rat) : ActiveNoteState × SaveOutcome :=
  if s.is_dirty = false then (s, .noop)
  else
    match Filesys.update_note db s.note_obj nowStr diskWrite with
    | (.ok mtime, note2) =>
        ({ s with note_obj := note2, last_known_mtime := mtime, is_dirty := false }, .saved mtime)
    | (.err, note2) => ({ s with note_obj := note2 }, .failedReported)

/-- A note together with its debounce clock: the armed timer's absolute fire
deadline (threading.Timer(2.0, ...) armed at time t fires at t + 2) and the
log of documents actually written to disk. -/
structure TimedState where
  note : ActiveNoteState
  save_timer : Option Rat
  disk_writes : List JNote

/-- The armed timer fires at its deadline `t`: run _save_to_disk against a
healthy disk (the write, when one happens, lands at mtime `t`); the consumed
timer handle is gone.  `now2str` is the clock rendering a time as the
ISO-8601 string update_timestamp writes. -/
def ActiveNote.fire_timer (db : FileIndex) (now2str : Rat → String) (ts : TimedState)
    (t : Rat) : TimedState :=
  let r := ActiveNote.save_to_disk ts.note db (now2str t) (some t)
  { note := r.1
    save_timer := none
    disk_writes := ts.disk_writes ++ (match r.2 with | .saved _ => [r.1.note_obj] | _ => []) }

/-- One timed mutation arriving at its timestamp: a pending timer whose
deadline has passed fires first; then the mutation is applied, and when it
calls _schedule_save the timer is re-armed to fire debounceDelay later
(cancelling any pending one -- the old deadline is simply replaced). -/
def ActiveNote.step_event (db : FileIndex) (now2str : Rat → String) (ts : TimedState)
    (ev : Rat × Mutation) : TimedState :=
  let ts1 := match ts.save_timer with
    | some d => if d ≤ ev.1 then ActiveNote.fire_timer db now2str ts d else ts
    | none => ts
  let r := Mutation.apply ts1.note ev.2
  { ts1 with note := r.1
             save_timer := if r.2 then some (ev.1 + debounceDelay) else ts1.save_timer }

/-- Run a timestamped mutation sequence. -/
def ActiveNote.run_events (db : FileIndex) (now2str : Rat → String) (ts : TimedState)
    (evts : List (Rat × Mutation)) : TimedState :=
  evts.foldl (ActiveNote.step_event db now2str) ts

/-- Let a still-pending timer fire (the quiescent period ends). -/
def ActiveNote.flush_pending (db : FileIndex) (now2str : Rat → String) (ts : TimedState) :
    TimedState :=
  match ts.save_timer with
  | some d => ActiveNote.fire_timer db now2str ts d
  | none => ts

/-- Each event lands strictly before the deadline `d` that is pending when it
arrives (deadlines advance to the event's time plus the debounce delay). -/
def windowFrom : Rat → List (Rat × Mutation) → Prop
  | _, [] => True
  | d, (t, _) :: rest => t < d ∧ windowFrom (t + debounceDelay) rest

/-- All mutations after the first are issued within the debounce window of
the then-pending timer (the claim's "issued before it fires"). -/
def issuedWithinWindow : List (Rat × Mutation) → Prop
  | [] => True
  | (t, _) :: rest => windowFrom (t + debounceDelay) rest

/-- Every mutation of the sequence, applied at its place, calls
_schedule_save (it is an add, or targets an existing block). -/
def allEffective : ActiveNoteState → List (Rat × Mutation) → Bool
  | _, [] => true
  | s, (_, m) :: rest => (Mutation.apply s m).2 && allEffective (Mutation.apply s m).1 rest

/-- What the initial blocking read of _load_from_disk_sync returned:
an exception (unreadable file, invalid JSON, failed stat), or parsed JSON
content. -/
inductive ReadDiskResult where
  | ioError
  | content (raw : RawNoteDict)

/-- active_state.ActiveNote._load_from_disk_sync: on an exception the
placeholder document is installed and the watermark keeps its 0.0 initial
value; on parsed content the result of JNote.from_dict -- which is Python
None, with no placeholder, when the JSON has no metadata key -- is installed
and the watermark set from stat.  Returns (note_obj, last_known_mtime). -/
def ActiveNote.load_from_disk_sync (read : ReadDiskResult) (statMtime : Rat)
    (freshId defaultTime : String) : Option JNote × Rat :=
  match read with
  | .ioError => (some (JNote.create_new "Error Loading Note" defaultTime freshId), 0)
  | .content raw =>
      match JNote.from_dict freshId defaultTime raw with
      | some o => (some o, statMtime)
      | none => (none, statMtime)

/-- active_state.ActiveNote.__init__: resolve the id through the index
(ValueError when absent), then load.  The error string is the raised
message; ok carries (note_obj, last_known_mtime) after the load. -/
def ActiveNote.init (db : FileIndex) (note_id : String) (read : ReadDiskResult)
    (statMtime : Rat) (freshId defaultTime : String) : Except String (Option JNote × Rat) :=
  match db.get_metadata note_id with
  | none => .error ("Note ID " ++ note_id ++ " not found in Index.")
  | some _ => .ok (ActiveNote.load_from_disk_sync read statMtime freshId defaultTime)

/-- A path strictly inside directory d: d, the separator, then a remainder. -/
def isUnderDir (d p : String) : Prop :=
  ∃ rest : String, p = d ++ "/" ++ rest

/-- A plain text block fixture. -/
def exBlock (i : String) : NoteBlock :=
  { block_id := i, type := "text", data := [], version := "1.0", tags := [], backlinks := [] }

/-- A concrete note header fixture. -/
def exMeta : NoteMetadata :=
  { note_id := "n1", title := "T", created_at := "t0", last_modified := "t0"
    version := "1.0", status := 0, tags := [] }

/-- A concrete loaded document fixture. -/
def exNote : JNote :=
  { metadata := exMeta, blocks := [exBlock "b1"], custom_fields := [] }

/-- A clean open note whose last flush landed at mtime 10. -/
def exState : ActiveNoteState :=
  { note_obj := exNote, is_dirty := false, last_known_mtime := 10 }

/-- The same note with unsaved changes. -/
def exDirtyState : ActiveNoteState :=
  { note_obj := exNote, is_dirty := true, last_known_mtime := 10 }

/-- An index that knows note n1 under /vault. -/
def exDb : FileIndex :=
  { notes := [{ note_id := some "n1", note_title := "T", note_version := "1.0", note_dir := "/vault" }]
    directories := [] }

/-- The parsed JSON of an externally edited version of note n1. -/
def exRaw : RawNoteDict :=
  { metadata := some { note_id := some "n1", title := some "T", created_at := some "t0"
                       last_modified := some "t9", version := some "1.0", status := some 0
                       tags := some [] }
    custom_fields := some []
    blocks := some [] }

/-- The document exRaw parses to. -/
def exRawNote : JNote :=
  { metadata := { note_id := "n1", title := "T", created_at := "t0", last_modified := "t9"
                  version := "1.0", status := 0, tags := [] }
    blocks := [], custom_fields := [] }

/-- An index holding directories /vault/A and its prefix-sibling
/vault/ABackup, plus a note inside the sibling. -/
def renameDb : FileIndex :=
  { notes := [{ note_id := some "nb", note_title := "NB", note_version := "1.0"
                note_dir := "/vault/ABackup" }]
    directories :=
      [{ dir_path := "/vault/A", dir_name := "A", parent_path := some "/vault" },
       { dir_path := "/vault/ABackup", dir_name := "ABackup", parent_path := some "/vault" }] }

/-- An index with /vault/A, a descendant, a prefix-sibling /vault/AX, and one
note in each of /vault/A and /vault/AX. -/
def delDb : FileIndex :=
  { notes := [{ note_id := some "na", note_title := "NA", note_version := "1.0", note_dir := "/vault/A" },
              { note_id := some "nx", note_title := "NX", note_version := "1.0", note_dir := "/vault/AX" }]
    directories :=
      [{ dir_path := "/vault/A", dir_name := "A", parent_path := some "/vault" },
       { dir_path := "/vault/A/sub", dir_name := "sub", parent_path := some "/vault/A" },
       { dir_path := "/vault/AX", dir_name := "AX", parent_path := some "/vault" }] }

/-- The prefix-sibling directory row of delDb. -/
def rowAX : CacheDb.DirectoryMetadata :=
  { dir_path := "/vault/AX", dir_name := "AX", parent_path := some "/vault" }

/-- A parsed JSON document that is a valid JSON object with no metadata key. -/
def emptyJsonDict : RawNoteDict :=
  { metadata := none, custom_fields := none, blocks := none }

/-- An extracted header carrying an id and a version but no title. -/
def exExtracted : ExtractedMeta :=
  { note_id := some "idX", title := none, version := some "2.0" }

/-- A constant rendering of the clock, for concrete runs. -/
def exClock : Rat → String := fun _ => "tw"

/-- Three effective mutations at times 0, 1, 2, each within the debounce
window of the previously armed timer. -/
def exEvents : List (Rat × Mutation) :=
  [(0, Mutation.addBlock (exBlock "b2")),
   (1, Mutation.updateBlock "b1" [("k", JValue.str "v")]),
   (2, Mutation.deleteBlock "b2")]

/-- Every field present in a raw block dictionary has kept its value in the
parsed block. -/
def blockPreserved (r : RawBlockDict) (b : NoteBlock) : Prop :=
  (∀ v, r.block_id = some v → b.block_id = v) ∧
  (∀ v, r.type = some v → b.type = v) ∧
  (∀ v, r.data = some v → b.data = v) ∧
  (∀ v, r.version = some v → b.version = v) ∧
  (∀ v, r.tags = some v → b.tags = v) ∧
  (∀ v, r.backlinks = some v → b.backlinks = v)

/-- The deadline the last re-armed timer of a run carries. -/
def lastDeadline : Rat → List (Rat × Mutation) → Rat
  | d, [] => d
  | _, (t, _) :: rest => lastDeadline (t + debounceDelay) rest

/-- prefixMatch p s holds exactly when s is p followed by some remainder. -/
theorem prefixMatch_iff (p s : String) :
    prefixMatch p s = true ↔ ∃ u : String, s = p ++ u := by
  unfold prefixMatch
  rw [List.isPrefixOf_iff_prefix]
  constructor
  · rintro ⟨u, hu⟩
    exact ⟨⟨u⟩, by apply String.ext; rw [String.data_append]; exact hu.symm⟩
  · rintro ⟨u, hu⟩
    exact ⟨u.data, by rw [hu, String.data_append]⟩

/-- Matching against a separator-bounded prefix is exactly being strictly
under the directory. -/
theorem prefixMatch_sep_iff (d p : String) :
    prefixMatch (d ++ "/") p = true ↔ isUnderDir d p :=
  prefixMatch_iff (d ++ "/") p

/-- Contrapositive form usable on concrete inputs. -/
theorem not_under_of_pm_false (d p : String) (h : prefixMatch (d ++ "/") p = false) :
    ¬ isUnderDir d p := fun hu => by
  rw [← prefixMatch_sep_iff] at hu
  rw [h] at hu
  exact Bool.false_ne_true hu

/-- On a nonempty path without a trailing separator, sepBounded appends
one. -/
theorem sepBounded_eq (d : String) (h0 : d ≠ "") (h1 : d.data.getLast? ≠ some '/') :
    sepBounded d = d ++ "/" := by
  simp [sepBounded, h0, h1]

/-- C1: for every open note, if a mutation sets the dirty flag between a
hot-swap's disk read and its lock re-acquisition, the swap aborts, leaving
the in-memory document (with the local edits) and the echo watermark exactly
as the mutations left them, and the abort is reported; if the note is still
clean at the lock, the freshly read document is installed and the watermark
becomes the read file's mtime. -/
theorem C1_hot_swap_race (preRead : ActiveNoteState) (raceMutations : List Mutation)
    (raw : RawNoteDict) (freshId defaultTime : String) (diskMtime : Rat) (new_obj : JNote)
    (hparse : JNote.from_dict freshId defaultTime raw = some new_obj) :
    ((ActiveNote.applyMutations preRead raceMutations).is_dirty = true →
      ActiveNote.perform_hot_swap preRead raceMutations raw freshId defaultTime diskMtime =
        some (ActiveNote.applyMutations preRead raceMutations, HotSwapResult.aborted)) ∧
    ((ActiveNote.applyMutations preRead raceMutations).is_dirty = false →
      ActiveNote.perform_hot_swap preRead raceMutations raw freshId defaultTime diskMtime =
        some ({ ActiveNote.applyMutations preRead raceMutations with
                  note_obj := new_obj, last_known_mtime := diskMtime },
              HotSwapResult.swapped)) := by
  unfold ActiveNote.perform_hot_swap
  rw [hparse]
  unfold ActiveNote.hot_swap_commit
  constructor <;> intro h <;> simp [h]

/-- C1 witness: a clean note, one add-block mutation racing the read; the
swap aborts and the mutated state survives. -/
theorem C1_hot_swap_race_witness :
    ActiveNote.perform_hot_swap exState [Mutation.addBlock (exBlock "b2")] exRaw "f" "t" 30 =
      some (ActiveNote.applyMutations exState [Mutation.addBlock (exBlock "b2")],
            HotSwapResult.aborted) :=
  (C1_hot_swap_race exState [Mutation.addBlock (exBlock "b2")] exRaw "f" "t" 30
    exRawNote rfl).1 rfl

/-- C2: a notification whose mtime is within the 0.1 s tolerance of the echo
watermark is discarded with the note state untouched; any other notification
invokes the hot-swap trigger, which starts the asynchronous reload whenever
the note is clean. -/
theorem C2_echo_filter (s : ActiveNoteState) (event_mtime : Rat) :
    (|event_mtime - s.last_known_mtime| < echoTolerance →
       ActiveNote.handle_external_update s event_mtime = (s, ExtUpdateAction.ignoredEcho)) ∧
    (¬ |event_mtime - s.last_known_mtime| < echoTolerance →
       ActiveNote.handle_external_update s event_mtime = (s, ActiveNote.trigger_hot_swap s) ∧
       (s.is_dirty = false →
         ActiveNote.handle_external_update s event_mtime = (s, ExtUpdateAction.swapStarted))) := by
  refine ⟨fun h => ?_, fun h => ⟨?_, fun hd => ?_⟩⟩
  · simp [ActiveNote.handle_external_update, h]
  · simp [ActiveNote.handle_external_update, h]
  · simp [ActiveNote.handle_external_update, ActiveNote.trigger_hot_swap, h, hd]

/-- C2 witness: at the watermark the event is discarded; 10 seconds away the
clean note starts a hot swap. -/
theorem C2_echo_filter_witness :
    ActiveNote.handle_external_update exState 10 = (exState, ExtUpdateAction.ignoredEcho) ∧
    ActiveNote.handle_external_update exState 20 = (exState, ExtUpdateAction.swapStarted) := by
  constructor
  · refine (C2_echo_filter exState 10).1 ?_
    rw [show exState.last_known_mtime = 10 from rfl, sub_self, abs_zero]
    rw [echoTolerance]
    norm_num
  · refine ((C2_echo_filter exState 20).2 ?_).2 rfl
    rw [show exState.last_known_mtime = 10 from rfl,
        show (20 : Rat) - 10 = 10 by norm_num,
        abs_of_pos (by norm_num : (0 : Rat) < 10), echoTolerance]
    norm_num

/-- C10: update_block and delete_block on a block id that occurs nowhere in
the note leave the state (blocks, dirty flag and all) unchanged and do not
schedule a save; update_block logs a warning. -/
theorem C10_missing_block_frame (s : ActiveNoteState) (block_id : String) (new_data : Payload)
    (h : ∀ b ∈ s.note_obj.blocks, b.block_id ≠ block_id) :
    ActiveNote.update_block s block_id new_data = (s, false, true) ∧
    ActiveNote.delete_block s block_id = (s, false) := by
  have hany : (s.note_obj.blocks.any (fun b => b.block_id == block_id)) = false := by
    rw [Bool.eq_false_iff]
    intro hc
    obtain ⟨b, hb, hbe⟩ := List.any_eq_true.mp hc
    exact h b hb (by simpa using hbe)
  have hfil : s.note_obj.blocks.filter (fun b => b.block_id != block_id) = s.note_obj.blocks :=
    List.filter_eq_self.mpr (fun b hb => by simpa [bne_iff_ne] using h b hb)
  constructor
  · simp [ActiveNote.update_block, hany]
  · simp [ActiveNote.delete_block, hfil]

/-- C10 witness: the fixture note has only block b1, so operations on zz are
frame-preserving. -/
theorem C10_missing_block_frame_witness :
    ActiveNote.update_block exState "zz" [] = (exState, false, true) ∧
    ActiveNote.delete_block exState "zz" = (exState, false) :=
  C10_missing_block_frame exState "zz" [] (by decide)

/-- C3: update_directory matches descendants with an unbounded prefix
(LIKE old_path || '%', no separator appended), so renaming /vault/A to
/vault/B also rewrites the sibling /vault/ABackup to /vault/BBackup and moves
the note stored under it -- the separator-bounded prefix invariant the spec
states for renames does not hold in the code. -/
theorem C3_rename_hits_sibling :
    ((renameDb.update_directory "/vault/A" "/vault/B" "B").directories.map
        (fun r => r.dir_path)) = ["/vault/B", "/vault/BBackup"] ∧
    ((renameDb.update_directory "/vault/A" "/vault/B" "B").notes.map
        (fun r => r.note_dir)) = ["/vault/BBackup"] := by
  constructor <;> rfl

/-- C5 counterexample: a dirty note whose flush fails (the index knows the
id, the write itself fails).  The error is reported and dirty is kept, but
the in-memory document is NOT unchanged: update_note stamped its
last_modified before attempting the write. -/
theorem C5_counterexample :
    (ActiveNote.save_to_disk exDirtyState exDb "t1" none).2 = SaveOutcome.failedReported ∧
    (ActiveNote.save_to_disk exDirtyState exDb "t1" none).1.is_dirty = true ∧
    (ActiveNote.save_to_disk exDirtyState exDb "t1" none).1.note_obj ≠ exDirtyState.note_obj := by
  refine ⟨rfl, rfl, fun h => ?_⟩
  have h2 : "t1" = "t0" := congrArg (fun j => j.metadata.last_modified) h
  exact absurd h2 (by decide)

/-- C5 amended: the debounced flush is a no-op when clean; a successful write
sets the watermark to the resulting mtime and clears dirty; a failed write
keeps dirty, reports the error, and leaves the watermark, the blocks, the
custom fields and every header field except last_modified unchanged (the
header timestamp is refreshed before the write is attempted whenever the id
resolves through the index). -/
theorem C5_flush_contract (s : ActiveNoteState) (db : FileIndex) (nowStr : String)
    (diskWrite : Option Rat) :
    (s.is_dirty = false →
      ActiveNote.save_to_disk s db nowStr diskWrite = (s, SaveOutcome.noop)) ∧
    (∀ mtime, s.is_dirty = true → diskWrite = some mtime →
      (db.get_metadata s.note_obj.metadata.note_id).isSome = true →
      (ActiveNote.save_to_disk s db nowStr diskWrite).2 = SaveOutcome.saved mtime ∧
      (ActiveNote.save_to_disk s db nowStr diskWrite).1.last_known_mtime = mtime ∧
      (ActiveNote.save_to_disk s db nowStr diskWrite).1.is_dirty = false) ∧
    (s.is_dirty = true →
      (diskWrite = none ∨ db.get_metadata s.note_obj.metadata.note_id = none) →
      (ActiveNote.save_to_disk s db nowStr diskWrite).2 = SaveOutcome.failedReported ∧
      (ActiveNote.save_to_disk s db nowStr diskWrite).1.is_dirty = true ∧
      (ActiveNote.save_to_disk s db nowStr diskWrite).1.last_known_mtime = s.last_known_mtime ∧
      (ActiveNote.save_to_disk s db nowStr diskWrite).1.note_obj.blocks = s.note_obj.blocks ∧
      (ActiveNote.save_to_disk s db nowStr diskWrite).1.note_obj.custom_fields
        = s.note_obj.custom_fields ∧
      (ActiveNote.save_to_disk s db nowStr diskWrite).1.note_obj.metadata.note_id
        = s.note_obj.metadata.note_id ∧
      (ActiveNote.save_to_disk s db nowStr diskWrite).1.note_obj.metadata.title
        = s.note_obj.metadata.title ∧
      (ActiveNote.save_to_disk s db nowStr diskWrite).1.note_obj.metadata.created_at
        = s.note_obj.metadata.created_at ∧
      (ActiveNote.save_to_disk s db nowStr diskWrite).1.note_obj.metadata.version
        = s.note_obj.metadata.version ∧
      (ActiveNote.save_to_disk s db nowStr diskWrite).1.note_obj.metadata.status
        = s.note_obj.metadata.status ∧
      (ActiveNote.save_to_disk s db nowStr diskWrite).1.note_obj.metadata.tags
        = s.note_obj.metadata.tags) := by
  refine ⟨fun hc => ?_, fun mtime hd hw hidx => ?_, fun hd hfail => ?_⟩
  · simp [ActiveNote.save_to_disk, hc]
  · obtain ⟨row, hrow⟩ := Option.isSome_iff_exists.mp hidx
    simp [ActiveNote.save_to_disk, hd, hw, Filesys.update_note, hrow]
  · rcases hfail with hw | hmiss
    · cases hrow : db.get_metadata s.note_obj.metadata.note_id with
      | none =>
          simp [ActiveNote.save_to_disk, hd, hw, Filesys.update_note, hrow]
      | some row =>
          simp [ActiveNote.save_to_disk, hd, hw, Filesys.update_note, hrow,
                NoteMetadata.update_timestamp]
    · cases hw : diskWrite with
      | none =>
          simp [ActiveNote.save_to_disk, hd, hw, Filesys.update_note, hmiss]
      | some mtime =>
          simp [ActiveNote.save_to_disk, hd, hw, Filesys.update_note, hmiss]

/-- C5 witness: the failed-write branch of the flush contract at the fixture
inputs. -/
theorem C5_flush_contract_witness :
    (ActiveNote.save_to_disk exDirtyState exDb "t1" none).2 = SaveOutcome.failedReported ∧
    (ActiveNote.save_to_disk exDirtyState exDb "t1" none).1.is_dirty = true ∧
    (ActiveNote.save_to_disk exDirtyState exDb "t1" none).1.note_obj.blocks
      = exDirtyState.note_obj.blocks := by
  have h := (C5_flush_contract exDirtyState exDb "t1" none).2.2 rfl (Or.inl rfl)
  exact ⟨h.1, h.2.1, h.2.2.2.1⟩

/-- C6: opening an id absent from the index raises the ValueError; an
unreadable file degrades to the placeholder document as the claim says; but
a file holding valid JSON that is not a note document (no metadata key)
leaves the in-memory document as Python None -- no placeholder is installed,
because the placeholder assignment sits in the except branch and
JNote.from_dict returns None without raising. -/
theorem C6_open_corrupt_no_placeholder :
    ActiveNote.init exDb "zz" (ReadDiskResult.content emptyJsonDict) 5 "f" "t" =
      Except.error "Note ID zz not found in Index." ∧
    ActiveNote.load_from_disk_sync ReadDiskResult.ioError 5 "f" "t" =
      (some (JNote.create_new "Error Loading Note" "t" "f"), 0) ∧
    ActiveNote.init exDb "n1" (ReadDiskResult.content emptyJsonDict) 5 "f" "t" =
      Except.ok (none, 5) :=
  ⟨rfl, rfl, rfl⟩

/-- Looking up the key of a freshly upserted row returns that row. -/
theorem get_metadata_add_metadata (db : FileIndex) (note : CacheDb.NoteMetadata) (i : String)
    (h : note.note_id = some i) :
    (db.add_metadata note).get_metadata i = some note := by
  obtain ⟨nid, nt, nv, nd⟩ := note
  simp only at h
  subst h
  unfold FileIndex.add_metadata FileIndex.get_metadata
  simp only
  rw [List.find?_append]
  have h1 : (db.notes.filter
      (fun r => r.note_id != some i)).find? (fun r => r.note_id == some i) = none := by
    rw [List.find?_eq_none]
    intro r hr
    simpa [bne_iff_ne] using (List.mem_filter.mp hr).2
  rw [h1]
  simp [List.find?]

/-- C7 counterexample: on a note-file event whose header extraction fails,
the watcher upserts nothing at all -- in particular no record keyed by the
filename stem exists afterwards, against the claimed filename-identity
fallback. -/
theorem C7_counterexample :
    VaultEventHandler.process_note_file exDb "stemid" "/vault" none = exDb ∧
    (VaultEventHandler.process_note_file exDb "stemid" "/vault" none).get_metadata "stemid"
      = none :=
  ⟨rfl, rfl⟩

/-- C7 amended: the watcher upserts a record keyed by the id found inside the
file whenever the extracted header is nonempty (the filename stem serves only
as the title fallback); when the header is unreadable or empty, no record is
upserted and the index is untouched. -/
theorem C7_watcher_upsert (db : FileIndex) (fileStem parentDir : String) (m : ExtractedMeta) :
    (VaultEventHandler.process_note_file db fileStem parentDir none = db) ∧
    (∀ i, m.note_id = some i →
      (VaultEventHandler.process_note_file db fileStem parentDir (some m)).get_metadata i =
        some { note_id := some i, note_title := m.title.getD fileStem
               note_version := m.version.getD "1.0", note_dir := parentDir }) := by
  refine ⟨rfl, fun i hi => ?_⟩
  obtain ⟨mid, mt, mv⟩ := m
  simp only at hi
  subst hi
  exact get_metadata_add_metadata db _ i rfl

/-- C7 witness: a header with id idX and no title upserts a record keyed idX
titled by the filename stem. -/
theorem C7_watcher_upsert_witness :
    (VaultEventHandler.process_note_file exDb "stem" "/v" (some exExtracted)).get_metadata "idX"
      = some { note_id := some "idX", note_title := "stem"
               note_version := "2.0", note_dir := "/v" } :=
  (C7_watcher_upsert exDb "stem" "/v" exExtracted).2 "idX" rfl

/-- C8: the recursive directory delete removes exactly the directory's own
records and everything strictly under it (separator-bounded match): a note or
directory row survives precisely when its path is neither the deleted path
nor under it; in particular a sibling whose path merely extends the deleted
path as a string survives. -/
theorem C8_delete_subtree (db : FileIndex) (d : String)
    (h0 : d ≠ "") (h1 : d.data.getLast? ≠ some '/') :
    (∀ r, r ∈ (db.delete_directory_recursive d).notes ↔
        r ∈ db.notes ∧ r.note_dir ≠ d ∧ ¬ isUnderDir d r.note_dir) ∧
    (∀ r, r ∈ (db.delete_directory_recursive d).directories ↔
        r ∈ db.directories ∧ r.dir_path ≠ d ∧ ¬ isUnderDir d r.dir_path) ∧
    (∀ r ∈ db.directories, r.dir_path ≠ d → ¬ isUnderDir d r.dir_path →
        r ∈ (db.delete_directory_recursive d).directories) := by
  have hsep := sepBounded_eq d h0 h1
  have key : ∀ p : String, ((!(prefixMatch (sepBounded d) p)) = true) ↔ ¬ isUnderDir d p := by
    intro p
    rw [hsep]
    cases hpm : prefixMatch (d ++ "/") p
    · simp only [Bool.not_false]
      exact iff_of_true (by trivial) (not_under_of_pm_false d p hpm)
    · simp only [Bool.not_true]
      exact iff_of_false (by simp) (not_not_intro ((prefixMatch_sep_iff d p).mp hpm))
  have hnotes : ∀ r, r ∈ (db.delete_directory_recursive d).notes ↔
      r ∈ db.notes ∧ r.note_dir ≠ d ∧ ¬ isUnderDir d r.note_dir := by
    intro r
    simp only [FileIndex.delete_directory_recursive, List.mem_filter, bne_iff_ne, key,
      and_assoc]
    tauto
  have hdirs : ∀ r, r ∈ (db.delete_directory_recursive d).directories ↔
      r ∈ db.directories ∧ r.dir_path ≠ d ∧ ¬ isUnderDir d r.dir_path := by
    intro r
    simp only [FileIndex.delete_directory_recursive, List.mem_filter, bne_iff_ne, key,
      and_assoc]
    tauto
  exact ⟨hnotes, hdirs, fun r hr hne hnu => (hdirs r).mpr ⟨hr, hne, hnu⟩⟩

/-- C8 witness: deleting /vault/A from the fixture index leaves the sibling
directory /vault/AX in place. -/
theorem C8_delete_subtree_witness :
    rowAX ∈ (delDb.delete_directory_recursive "/vault/A").directories := by
  refine (C8_delete_subtree delDb "/vault/A" (by decide) (by decide)).2.2
    rowAX (by decide) (by decide) ?_
  exact not_under_of_pm_false "/vault/A" "/vault/AX" (by decide)

/-- C9: parsing a well-formed document dictionary (one with a metadata
object) with JNote.from_dict and serializing with JNote.to_dict succeeds and
preserves every field value present in the input: the header fields, the
custom fields, and block-by-block every present block field. -/
theorem C9_round_trip (raw : RawNoteDict) (m : RawMetadataDict) (freshId defaultTime : String)
    (hm : raw.metadata = some m) :
    ∃ j, JNote.from_dict freshId defaultTime raw = some j ∧
      ((∀ v, m.note_id = some v → j.to_dict.metadata.note_id = v) ∧
       (∀ v, m.title = some v → j.to_dict.metadata.title = v) ∧
       (∀ v, m.created_at = some v → j.to_dict.metadata.created_at = v) ∧
       (∀ v, m.last_modified = some v → j.to_dict.metadata.last_modified = v) ∧
       (∀ v, m.version = some v → j.to_dict.metadata.version = v) ∧
       (∀ v, m.status = some v → j.to_dict.metadata.status = v) ∧
       (∀ v, m.tags = some v → j.to_dict.metadata.tags = v) ∧
       (∀ cf, raw.custom_fields = some cf → j.to_dict.custom_fields = cf) ∧
       (∀ bs, raw.blocks = some bs →
          j.to_dict.blocks.length = bs.length ∧
          ∀ i, ∀ hi : i < bs.length, ∀ hj : i < j.to_dict.blocks.length,
            blockPreserved (bs.get ⟨i, hi⟩) (j.to_dict.blocks.get ⟨i, hj⟩))) := by
  refine ⟨{ metadata := NoteMetadata.from_dict freshId defaultTime m
            blocks := (raw.blocks.getD []).map (NoteBlock.from_dict freshId)
            custom_fields := raw.custom_fields.getD [] }, ?_, ?_⟩
  · unfold JNote.from_dict
    rw [hm]
  · refine ⟨?_, ?_, ?_, ?_, ?_, ?_, ?_, ?_, ?_⟩
    · intro v hv; simp [JNote.to_dict, NoteMetadata.from_dict, hv]
    · intro v hv; simp [JNote.to_dict, NoteMetadata.from_dict, hv]
    · intro v hv; simp [JNote.to_dict, NoteMetadata.from_dict, hv]
    · intro v hv; simp [JNote.to_dict, NoteMetadata.from_dict, hv]
    · intro v hv; simp [JNote.to_dict, NoteMetadata.from_dict, hv]
    · intro v hv; simp [JNote.to_dict, NoteMetadata.from_dict, hv]
    · intro v hv; simp [JNote.to_dict, NoteMetadata.from_dict, hv]
    · intro cf hcf; simp [JNote.to_dict, hcf]
    · intro bs hbs
      constructor
      · simp [JNote.to_dict, hbs]
      · intro i hi hj
        have hget : ((raw.blocks.getD []).map (NoteBlock.from_dict freshId)).get
            ⟨i, by simpa [JNote.to_dict] using hj⟩ =
            NoteBlock.from_dict freshId (bs.get ⟨i, hi⟩) := by
          simp only [List.get_eq_getElem, List.getElem_map]
          congr 1
          simp [hbs]
        show blockPreserved (bs.get ⟨i, hi⟩)
          (((raw.blocks.getD []).map (NoteBlock.from_dict freshId)).get _)
        rw [hget]
        refine ⟨?_, ?_, ?_, ?_, ?_, ?_⟩ <;>
          · intro v hv
            simp only [List.get_eq_getElem] at hv
            simp [NoteBlock.from_dict, hv]

/-- C9 witness: a fully specified document round-trips to its own values. -/
theorem C9_round_trip_witness :
    ∃ j, JNote.from_dict "f" "t" exRaw = some j ∧
      j.to_dict.metadata.title = "T" ∧ j.to_dict.custom_fields = [] := by
  obtain ⟨j, hj, hfields⟩ := C9_round_trip exRaw
    { note_id := some "n1", title := some "T", created_at := some "t0"
      last_modified := some "t9", version := some "1.0", status := some 0, tags := some [] }
    "f" "t" rfl
  exact ⟨j, hj, hfields.2.1 "T" rfl, hfields.2.2.2.2.2.2.2.1 [] rfl⟩

/-- A block mutation never touches the note header. -/
theorem Mutation.apply_metadata (s : ActiveNoteState) (m : Mutation) :
    (Mutation.apply s m).1.note_obj.metadata = s.note_obj.metadata := by
  cases m with
  | addBlock b => rfl
  | updateBlock block_id new_data =>
      simp only [Mutation.apply, ActiveNote.update_block]
      split <;> rfl
  | deleteBlock block_id =>
      simp only [Mutation.apply, ActiveNote.delete_block]
      split <;> rfl

/-- A mutation that called _schedule_save has set the dirty flag. -/
theorem Mutation.apply_dirty (s : ActiveNoteState) (m : Mutation)
    (h : (Mutation.apply s m).2 = true) : (Mutation.apply s m).1.is_dirty = true := by
  cases m with
  | addBlock b => rfl
  | updateBlock block_id new_data =>
      revert h
      simp only [Mutation.apply, ActiveNote.update_block]
      split
      · intro _; rfl
      · intro h; exact absurd h (by simp)
  | deleteBlock block_id =>
      revert h
      simp only [Mutation.apply, ActiveNote.delete_block]
      split
      · intro _; rfl
      · intro h; exact absurd h (by simp)

/-- A sequence of block mutations never touches the note header. -/
theorem ActiveNote.applyMutations_metadata (ms : List Mutation) :
    ∀ s : ActiveNoteState,
      (ActiveNote.applyMutations s ms).note_obj.metadata = s.note_obj.metadata := by
  induction ms with
  | nil => intro s; rfl
  | cons m rest ih =>
      intro s
      show (ActiveNote.applyMutations (Mutation.apply s m).1 rest).note_obj.metadata = _
      rw [ih, Mutation.apply_metadata]

/-- After a nonempty all-effective mutation sequence the note is dirty. -/
theorem allEffective_dirty (evts : List (Rat × Mutation)) :
    ∀ s : ActiveNoteState, evts ≠ [] → allEffective s evts = true →
      (ActiveNote.applyMutations s (evts.map Prod.snd)).is_dirty = true := by
  induction evts with
  | nil => intro s h _; exact absurd rfl h
  | cons ev rest ih =>
      obtain ⟨t, m⟩ := ev
      intro s _ heff
      have h12 : (Mutation.apply s m).2 = true ∧ allEffective (Mutation.apply s m).1 rest = true := by
        simpa [allEffective] using heff
      by_cases hr : rest = []
      · subst hr
        show ((Mutation.apply s m).1).is_dirty = true
        exact Mutation.apply_dirty s m h12.1
      · show (ActiveNote.applyMutations (Mutation.apply s m).1 (rest.map Prod.snd)).is_dirty = true
        exact ih (Mutation.apply s m).1 hr h12.2

/-- While every arriving mutation lands before the pending deadline and
re-arms the timer, the run applies the mutations in order, keeps the last
re-armed deadline pending, and writes nothing. -/
theorem run_events_windowed (db : FileIndex) (now2str : Rat → String)
    (evts : List (Rat × Mutation)) :
    ∀ (s : ActiveNoteState) (w : List JNote) (d : Rat),
      windowFrom d evts → allEffective s evts = true →
      ActiveNote.run_events db now2str ⟨s, some d, w⟩ evts =
        ⟨ActiveNote.applyMutations s (evts.map Prod.snd), some (lastDeadline d evts), w⟩ := by
  induction evts with
  | nil => intro s w d _ _; rfl
  | cons ev rest ih =>
      obtain ⟨t, m⟩ := ev
      intro s w d hwin heff
      obtain ⟨ht, hwin2⟩ := hwin
      have h12 : (Mutation.apply s m).2 = true ∧ allEffective (Mutation.apply s m).1 rest = true := by
        simpa [allEffective] using heff
      have hstep : ActiveNote.step_event db now2str ⟨s, some d, w⟩ (t, m) =
          ⟨(Mutation.apply s m).1, some (t + debounceDelay), w⟩ := by
        simp only [ActiveNote.step_event]
        rw [if_neg (not_le.mpr ht)]
        simp [h12.1]
      show ActiveNote.run_events db now2str
          (ActiveNote.step_event db now2str ⟨s, some d, w⟩ (t, m)) rest = _
      rw [hstep]
      exact ih (Mutation.apply s m).1 w (t + debounceDelay) hwin2 h12.2

/-- A pending timer over a dirty note whose id resolves through the index
fires into exactly one successful write of the current document. -/
theorem flush_fires (db : FileIndex) (now2str : Rat → String) (s : ActiveNoteState)
    (d : Rat) (w : List JNote) (row : CacheDb.NoteMetadata)
    (hdirty : s.is_dirty = true)
    (hlookup : db.get_metadata s.note_obj.metadata.note_id = some row) :
    ActiveNote.flush_pending db now2str ⟨s, some d, w⟩ =
      ⟨{ note_obj := { s.note_obj with
            metadata := s.note_obj.metadata.update_timestamp (now2str d) }
         is_dirty := false
         last_known_mtime := d },
        none,
        w ++ [{ s.note_obj with
            metadata := s.note_obj.metadata.update_timestamp (now2str d) }]⟩ := by
  simp [ActiveNote.flush_pending, ActiveNote.fire_timer, ActiveNote.save_to_disk,
    Filesys.update_note, hlookup, hdirty]

/-- C4: starting from an idle timer, a nonempty burst of mutations that each
re-arm the debounce timer before the pending one fires produces, once the
burst goes quiescent, exactly one disk write; that single write is the final
in-memory document, whose blocks are the result of all the mutations, and
the note ends clean. -/
theorem C4_debounce_coalescing (db : FileIndex) (now2str : Rat → String)
    (s0 : ActiveNoteState) (evts : List (Rat × Mutation))
    (hne : evts ≠ [])
    (hwin : issuedWithinWindow evts)
    (heff : allEffective s0 evts = true)
    (hidx : (db.get_metadata s0.note_obj.metadata.note_id).isSome = true) :
    (ActiveNote.flush_pending db now2str
        (ActiveNote.run_events db now2str ⟨s0, none, []⟩ evts)).disk_writes =
      [(ActiveNote.flush_pending db now2str
          (ActiveNote.run_events db now2str ⟨s0, none, []⟩ evts)).note.note_obj] ∧
    (ActiveNote.flush_pending db now2str
        (ActiveNote.run_events db now2str ⟨s0, none, []⟩ evts)).note.is_dirty = false ∧
    (ActiveNote.flush_pending db now2str
        (ActiveNote.run_events db now2str ⟨s0, none, []⟩ evts)).note.note_obj.blocks =
      (ActiveNote.applyMutations s0 (evts.map Prod.snd)).note_obj.blocks := by
  obtain ⟨⟨t1, m1⟩, rest, rfl⟩ : ∃ a l, evts = a :: l := by
    cases evts with
    | nil => exact absurd rfl hne
    | cons a l => exact ⟨a, l, rfl⟩
  have h12 : (Mutation.apply s0 m1).2 = true ∧
      allEffective (Mutation.apply s0 m1).1 rest = true := by
    simpa [allEffective] using heff
  have hstep1 : ActiveNote.step_event db now2str ⟨s0, none, []⟩ (t1, m1) =
      ⟨(Mutation.apply s0 m1).1, some (t1 + debounceDelay), []⟩ := by
    simp only [ActiveNote.step_event]
    simp [h12.1]
  have hrun : ActiveNote.run_events db now2str ⟨s0, none, []⟩ ((t1, m1) :: rest) =
      ⟨ActiveNote.applyMutations s0 (((t1, m1) :: rest).map Prod.snd),
       some (lastDeadline (t1 + debounceDelay) rest), []⟩ := by
    show ActiveNote.run_events db now2str
        (ActiveNote.step_event db now2str ⟨s0, none, []⟩ (t1, m1)) rest = _
    rw [hstep1]
    exact run_events_windowed db now2str rest (Mutation.apply s0 m1).1 []
      (t1 + debounceDelay) hwin h12.2
  have hdirty : (ActiveNote.applyMutations s0 (((t1, m1) :: rest).map Prod.snd)).is_dirty
      = true :=
    allEffective_dirty ((t1, m1) :: rest) s0 (by simp) heff
  obtain ⟨row, hrow⟩ := Option.isSome_iff_exists.mp hidx
  have hlookup : db.get_metadata
      (ActiveNote.applyMutations s0 (((t1, m1) :: rest).map Prod.snd)).note_obj.metadata.note_id
      = some row := by
    rw [ActiveNote.applyMutations_metadata]
    exact hrow
  rw [hrun, flush_fires db now2str _ _ [] row hdirty hlookup]
  refine ⟨by simp, rfl, rfl⟩

/-- C4 witness: three mutations at times 0, 1, 2 (each within the 2-unit
window of the pending timer) coalesce into one write of the final state. -/
theorem C4_debounce_coalescing_witness :
    (ActiveNote.flush_pending exDb exClock
        (ActiveNote.run_events exDb exClock ⟨exState, none, []⟩ exEvents)).disk_writes =
      [(ActiveNote.flush_pending exDb exClock
          (ActiveNote.run_events exDb exClock ⟨exState, none, []⟩ exEvents)).note.note_obj] ∧
    (ActiveNote.flush_pending exDb exClock
        (ActiveNote.run_events exDb exClock ⟨exState, none, []⟩ exEvents)).note.is_dirty
      = false ∧
    (ActiveNote.flush_pending exDb exClock
        (ActiveNote.run_events exDb exClock ⟨exState, none, []⟩ exEvents)).note.note_obj.blocks =
      (ActiveNote.applyMutations exState (exEvents.map Prod.snd)).note_obj.blocks := by
  refine C4_debounce_coalescing exDb exClock exState exEvents (by simp [exEvents]) ?_ (by rfl) rfl
  show windowFrom ((0 : Rat) + debounceDelay)
    [((1 : Rat), Mutation.updateBlock "b1" [("k", JValue.str "v")]),
     ((2 : Rat), Mutation.deleteBlock "b2")]
  refine ⟨by rw [debounceDelay]; norm_num, by rw [debounceDelay]; norm_num, trivial⟩
